import Mathlib

/-!
# Verification of the `dyn_struct` DST construction core

Shallow embedding of `src/lib.rs` of the `dyn_struct` crate.

A Rust type parameter (`T` or `D`) is modelled by its size and alignment
together with the invariants Rust guarantees for every `Sized` type:
the alignment is a power of two, the size is a multiple of the alignment,
and the size does not exceed `isize::MAX`.

Values of a trivially-copyable (`Copy`) type are modelled by their byte
representation: a `List Nat` whose length is the type's size.  Memory is a
`List Nat` of bytes; a `copy_from_nonoverlapping` that would touch bytes
outside the allocated block is undefined behaviour and is modelled as the
explicit outcome `NewResult.ub`.
-/

/-- Value of `isize::MAX` on a 64-bit target. -/
def isizeMax : Nat := 2 ^ 63 - 1

/-- Value of `usize::MAX` on a 64-bit target. -/
def usizeMax : Nat := 2 ^ 64 - 1

/-- A Rust `Sized` type parameter, abstracted to its layout data plus the
layout invariants the Rust compiler guarantees for every such type. -/
structure RustType where
  size : Nat
  align : Nat
  align_two_pow : ∃ k, align = 2 ^ k
  align_dvd_size : align ∣ size
  size_le : size ≤ isizeMax

/-- Model of `std::alloc::Layout::is_power_of_two` on the align argument:
`n != 0 && n & (n - 1) == 0`. -/
def is_power_of_two (n : Nat) : Bool :=
  n != 0 && n.land (n - 1) == 0

/-- Source line 102: `let total_size = size_of::<T>() + size_of::<D>() *
many.len();` — note that this does NOT include any padding between the
header and the trailing array. -/
def total_size (τ δ : RustType) (n : Nat) : Nat :=
  τ.size + δ.size * n

/-- Source line 112: `let align = usize::max(align_of::<T>(),
align_of::<D>());` — the alignment the allocation is requested with. -/
def alloc_align (τ δ : RustType) : Nat :=
  max τ.align δ.align

/-- Model of `std::alloc::Layout::from_size_align(size, align)` succeeding:
the alignment must be a power of two and `size` must not overflow
`isize::MAX` when rounded up to a multiple of `align`.  The `.unwrap()` in
src/lib.rs line 113 panics exactly when this is `false`. -/
def layout_ok (size align : Nat) : Bool :=
  is_power_of_two align && decide (size ≤ isizeMax - (align - 1))

/-- Model of `ptr.align_offset(align)` for a byte pointer at address
`addr`: the smallest byte count to add so that the result is a multiple of
`align`. -/
def align_offset (addr align : Nat) : Nat :=
  (align - addr % align) % align

/-- Byte offset (relative to the block start `base`) at which
`DynStruct::many_ptr` places the trailing array (src/lib.rs lines 135-142):
`naive = raw.add(size_of::<T>()); naive.add(naive.align_offset(align_of::<D>()))`. -/
def many_offset (base : Nat) (τ δ : RustType) : Nat :=
  τ.size + align_offset (base + τ.size) δ.align

/-- The standard alignment rounding the spec describes: the smallest
multiple of `a` that is `≥ x` (for `a > 0`). -/
def round_up (x a : Nat) : Nat :=
  x + (a - x % a) % a

/-- Overwrite `mem[off .. off + bs.length)` with `bs`; `none` when the
write would reach outside the block (undefined behaviour in the source). -/
def writeBytes (mem : List Nat) (off : Nat) (bs : List Nat) : Option (List Nat) :=
  if off + bs.length ≤ mem.length then
    some (mem.take off ++ bs ++ mem.drop (off + bs.length))
  else none

/-- Read `len` bytes starting at `off`; `none` when out of bounds. -/
def readBytes (mem : List Nat) (off len : Nat) : Option (List Nat) :=
  if off + len ≤ mem.length then some ((mem.drop off).take len) else none

/-- Outcome of running `DynStruct::new`:
either a handle (its block contents, its fat-pointer length metadata, and
whether the heap allocator was called), or the fatal
`handle_alloc_error` abort, or a panic (the layout `.unwrap()`), or
undefined behaviour (a raw write outside the allocated block). -/
inductive NewResult where
  | ok (mem : List Nat) (len : Nat) (heapAllocated : Bool)
  | fatalAlloc
  | panicked
  | ub
deriving DecidableEq

/-- Model of `DynStruct::<T, D>::new(single, many)` (src/lib.rs lines
95-129).  `single` is the byte representation of the header value, `many`
the byte representations of the elements, `alloc` the address returned by
`std::alloc::alloc` (`none` = null).  Mirrors the source line by line:
compute `total_size`; if zero, build the fat pointer from a length-`n`
slice of units without allocating; otherwise unwrap the layout (panic on
failure), allocate (fatal abort on null), copy the header to offset 0 and
the elements to `many_offset`, and assemble the fat pointer with length
`many.len()`. -/
def dynStructNew (τ δ : RustType) (single : List Nat) (many : List (List Nat))
    (alloc : Option Nat) : NewResult :=
  if total_size τ δ many.length = 0 then
    NewResult.ok [] many.length false
  else
    if layout_ok (total_size τ δ many.length) (alloc_align τ δ) then
      match alloc with
      | none => NewResult.fatalAlloc
      | some base =>
          match writeBytes (List.replicate (total_size τ δ many.length) 0) 0 single with
          | none => NewResult.ub
          | some mem1 =>
              match writeBytes mem1 (many_offset base τ δ) many.flatten with
              | none => NewResult.ub
              | some mem2 => NewResult.ok mem2 many.length true
    else NewResult.panicked

/-- Model of `slice_with_len(len)` (src/lib.rs lines 158-161):
`&ARBITRARY[..len]` where `ARBITRARY : [(); usize::MAX]`.  Slicing panics
(`none`) exactly when `len` exceeds the static array's length. -/
def slice_with_len (len : Nat) : Option (List Unit) :=
  if len ≤ usizeMax then some (List.replicate len ()) else none

/-- The `#[repr(C)]` offset of the `many : [D]` field of
`DynStruct<T, D>`: `size_of::<T>()` rounded up to `align_of::<D>()`. -/
def many_field_offset (τ δ : RustType) : Nat :=
  round_up τ.size δ.align

/-- Model of `DynStruct::<T, T>::from_slice(values)` (src/lib.rs lines
147-155).  Panics (`none`) on an empty slice; otherwise the returned view
is backed by the input's memory (the concatenation of the elements' byte
representations) with fat-pointer length metadata `values.len() - 1`,
exactly what the cast of `&values[..values.len() - 1]` to `*const Self`
produces. -/
def from_slice (τ : RustType) (values : List (List Nat)) : Option (List Nat × Nat) :=
  if values.length = 0 then none
  else some (values.flatten, values.length - 1)

/-- Reading the `single` field of a `DynStruct<T, D>` view/handle:
`size_of::<T>` bytes at offset 0. -/
def view_single (τ : RustType) (v : List Nat × Nat) : Option (List Nat) :=
  readBytes v.1 0 τ.size

/-- Reading element `i` of the `many` field of a `DynStruct<T, T>` view:
bounds-checked against the fat-pointer length, then `size_of::<T>` bytes
at the field offset plus `i * size_of::<T>`. -/
def view_many (τ : RustType) (v : List Nat × Nat) (i : Nat) : Option (List Nat) :=
  if i < v.2 then readBytes v.1 (many_field_offset τ τ + i * τ.size) τ.size
  else none

/-- Layout model of `u8` (also used for a `(bool)`-like 1-byte header). -/
def u8T : RustType :=
  ⟨1, 1, ⟨0, rfl⟩, one_dvd 1, by norm_num [isizeMax]⟩

/-- Layout model of `u32`. -/
def u32T : RustType :=
  ⟨4, 4, ⟨2, rfl⟩, dvd_refl 4, by norm_num [isizeMax]⟩

/-- Layout model of `()` (zero size, alignment 1). -/
def unitT : RustType :=
  ⟨0, 1, ⟨0, rfl⟩, one_dvd 0, by norm_num [isizeMax]⟩

/-- A valid Rust type of the maximal size `isize::MAX` with alignment 1,
used to exhibit the layout-overflow panic. -/
def hugeT : RustType :=
  ⟨isizeMax, 1, ⟨0, rfl⟩, one_dvd _, le_refl _⟩

/-! ## Helper lemmas -/

theorem land_two_pow_pred (k : Nat) : (2 ^ k).land (2 ^ k - 1) = 0 := by
  show 2 ^ k &&& (2 ^ k - 1) = 0
  rw [Nat.land_comm, Nat.and_two_pow]
  simp [Nat.testBit_eq_false_of_lt
    (Nat.sub_lt (Nat.pos_pow_of_pos k (by norm_num)) Nat.one_pos)]

theorem is_power_of_two_two_pow (k : Nat) : is_power_of_two (2 ^ k) = true := by
  simp only [is_power_of_two, Bool.and_eq_true, bne_iff_ne, ne_eq, beq_iff_eq]
  exact ⟨Nat.pos_iff_ne_zero.mp (Nat.pos_pow_of_pos k (by norm_num)),
    land_two_pow_pred k⟩

theorem RustType.align_pos (τ : RustType) : 0 < τ.align := by
  obtain ⟨k, hk⟩ := τ.align_two_pow
  rw [hk]
  exact Nat.pos_pow_of_pos k (by norm_num)

theorem alloc_align_two_pow (τ δ : RustType) : ∃ t, alloc_align τ δ = 2 ^ t := by
  obtain ⟨j, hj⟩ := τ.align_two_pow
  obtain ⟨k, hk⟩ := δ.align_two_pow
  unfold alloc_align
  rw [hj, hk]
  rcases le_total j k with h | h
  · exact ⟨k, max_eq_right (Nat.pow_le_pow_right (by norm_num) h)⟩
  · exact ⟨j, max_eq_left (Nat.pow_le_pow_right (by norm_num) h)⟩

theorem align_dvd_alloc_align_right (τ δ : RustType) : δ.align ∣ alloc_align τ δ := by
  obtain ⟨j, hj⟩ := τ.align_two_pow
  obtain ⟨k, hk⟩ := δ.align_two_pow
  unfold alloc_align
  rw [hj, hk]
  rcases le_total j k with h | h
  · rw [max_eq_right (Nat.pow_le_pow_right (by norm_num) h)]
  · rw [max_eq_left (Nat.pow_le_pow_right (by norm_num) h)]
    exact pow_dvd_pow 2 h

theorem align_offset_spec (a p : Nat) (hp : 0 < p) : p ∣ (a + align_offset a p) := by
  unfold align_offset
  rcases Nat.eq_zero_or_pos (a % p) with h0 | hpos
  · rw [h0, Nat.sub_zero, Nat.mod_self, Nat.add_zero]
    exact Nat.dvd_of_mod_eq_zero h0
  · have hlt : p - a % p < p := Nat.sub_lt hp hpos
    rw [Nat.mod_eq_of_lt hlt]
    have hle : a % p ≤ p := Nat.le_of_lt (Nat.mod_lt a hp)
    have hsum : a % p + (p - a % p) = p := Nat.add_sub_cancel' hle
    apply Nat.dvd_of_mod_eq_zero
    rw [Nat.add_mod, Nat.mod_eq_of_lt hlt, hsum, Nat.mod_self]

theorem round_up_eq_self (x a : Nat) (h : a ∣ x) : round_up x a = x := by
  unfold round_up
  rw [Nat.mod_eq_zero_of_dvd h, Nat.sub_zero, Nat.mod_self, Nat.add_zero]

theorem flatten_length_of_uniform (s : Nat) :
    ∀ (l : List (List Nat)), (∀ v ∈ l, v.length = s) → l.flatten.length = l.length * s
  | [], _ => by simp
  | a :: tl, h => by
      have ha : a.length = s := h a (List.mem_cons_self a tl)
      have htl := flatten_length_of_uniform s tl fun v hv => h v (List.mem_cons_of_mem a hv)
      simp only [List.flatten_cons, List.length_append, List.length_cons, ha, htl]
      ring

theorem flatten_segment (s : Nat) :
    ∀ (l : List (List Nat)) (k : Nat), (∀ v ∈ l, v.length = s) →
      ∀ (hk : k < l.length), (l.flatten.drop (k * s)).take s = l.get ⟨k, hk⟩
  | [], k, _, hk => absurd hk (by simp)
  | a :: tl, 0, h, _ => by
      have ha : a.length = s := h a (List.mem_cons_self a tl)
      simp only [List.flatten_cons, Nat.zero_mul, List.drop_zero, List.get]
      rw [← ha, List.take_left]
  | a :: tl, k + 1, h, hk => by
      have ha : a.length = s := h a (List.mem_cons_self a tl)
      have harith : (k + 1) * s = a.length + k * s := by rw [ha]; ring
      have hk' : k < tl.length := by
        simpa using Nat.lt_of_succ_lt_succ hk
      have htl : ∀ v ∈ tl, v.length = s := fun v hv => h v (List.mem_cons_of_mem a hv)
      calc ((a :: tl).flatten.drop ((k + 1) * s)).take s
          = ((a ++ tl.flatten).drop (a.length + k * s)).take s := by
            rw [List.flatten_cons, harith]
        _ = (((a ++ tl.flatten).drop a.length).drop (k * s)).take s := by
            rw [List.drop_drop, Nat.add_comm]
        _ = (tl.flatten.drop (k * s)).take s := by rw [List.drop_left]
        _ = tl.get ⟨k, hk'⟩ := flatten_segment s tl k htl hk'
        _ = (a :: tl).get ⟨k + 1, hk⟩ := rfl

/-! ## Claim theorems -/

/-- Claim C1 (code bug exhibited): at header type `u8` (size 1, align 1),
element type `u32` (size 4, align 4) and a single element, `DynStruct::new`
writes the element at byte offsets 4..8 of a 5-byte allocation — outside
the block — so the construction is undefined behaviour and the returned
handle does not hold the trailing elements as the claim requires. -/
theorem c1_new_oob_write_at_padded_layout :
    dynStructNew u8T u32T [7] [[1, 2, 3, 4]] (some 0) = NewResult.ub := rfl

/-- Claim C2 (code bug exhibited): for `T = u8`, `D = u32`, `n = 1` the
trailing offset the code writes at is `round_up (size T) (align D) = 4`,
so the claimed byte count is `4 + 4 = 8`, but the code requests only
`total_size = size T + size D * n = 5` bytes from the allocator: the
padding between header and trailing elements is not included. -/
theorem c2_total_size_omits_padding :
    many_offset 0 u8T u32T = round_up u8T.size u32T.align ∧
    round_up u8T.size u32T.align + u32T.size * 1 = 8 ∧
    total_size u8T u32T 1 = 5 ∧
    total_size u8T u32T 1 ≠ round_up u8T.size u32T.align + u32T.size * 1 := by
  refine ⟨rfl, rfl, rfl, ?_⟩
  decide

/-- Claim C3: whenever `DynStruct::new` returns a handle — on the
allocating path and on the zero-size path alike — the handle's fat-pointer
length metadata equals `many.len()`. -/
theorem c3_handle_len_eq_n (τ δ : RustType) (single : List Nat)
    (many : List (List Nat)) (alloc : Option Nat) (mem : List Nat)
    (len : Nat) (b : Bool)
    (h : dynStructNew τ δ single many alloc = NewResult.ok mem len b) :
    len = many.length := by
  unfold dynStructNew at h
  split at h
  · cases h; rfl
  · split at h
    · split at h
      · cases h
      · split at h
        · cases h
        · split at h
          · cases h
          · cases h; rfl
    · cases h

theorem c3_witness : (2 : Nat) = ([[1], [2]] : List (List Nat)).length :=
  c3_handle_len_eq_n u8T u8T [7] [[1], [2]] (some 0) [7, 1, 2] 2 true rfl

/-- Claim C5: `DynStruct::from_slice` on the empty slice always panics
(`none`) and never returns a view, whatever the element type. -/
theorem c5_from_slice_empty_panics (τ : RustType) : from_slice τ [] = none := rfl

/-- Claim C6: whenever `total_size` is zero, `DynStruct::new` never
reaches the allocating branch: it returns a handle built without calling
the heap allocator (`heapAllocated = false`, allocator result irrelevant)
whose length metadata is exactly `many.len()`. -/
theorem c6_zero_size_no_alloc (τ δ : RustType) (single : List Nat)
    (many : List (List Nat)) (alloc : Option Nat)
    (h : total_size τ δ many.length = 0) :
    dynStructNew τ δ single many alloc = NewResult.ok [] many.length false := by
  unfold dynStructNew
  rw [if_pos h]

theorem c6_witness :
    total_size unitT unitT 2 = 0 ∧
    dynStructNew unitT unitT [] [[], []] none = NewResult.ok [] 2 false :=
  ⟨rfl, c6_zero_size_no_alloc unitT unitT [] [[], []] none rfl⟩

/-- Claim C8: on the allocating path (`total_size ≠ 0`, layout valid),
when the process-wide allocator returns null, `DynStruct::new` hits
`handle_alloc_error`: a fatal abort, not an error value and not a
handle. -/
theorem c8_null_alloc_is_fatal (τ δ : RustType) (single : List Nat)
    (many : List (List Nat))
    (h1 : total_size τ δ many.length ≠ 0)
    (h2 : layout_ok (total_size τ δ many.length) (alloc_align τ δ) = true) :
    dynStructNew τ δ single many none = NewResult.fatalAlloc := by
  unfold dynStructNew
  rw [if_neg h1, if_pos h2]

theorem c8_witness :
    total_size u8T u8T 0 ≠ 0 ∧
    layout_ok (total_size u8T u8T 0) (alloc_align u8T u8T) = true ∧
    dynStructNew u8T u8T [5] [] none = NewResult.fatalAlloc :=
  ⟨by decide, by decide, c8_null_alloc_is_fatal u8T u8T [5] [] (by decide) (by decide)⟩

/-- Claim C9, counterexample: for a maximal-size (but valid) header type of
`isize::MAX` bytes and one `u8` element, `total_size` is `2^63`, the
layout `.unwrap()` fails, and `DynStruct::new` panics — so construction
does have a failure condition besides allocation failure. -/
theorem c9_counterexample_layout_panic :
    dynStructNew hugeT u8T (List.replicate isizeMax 0) [[0]] (some 0) =
      NewResult.panicked := rfl

/-- Claim C10: `slice_with_len(len)` succeeds for every `len` up to
`usize::MAX` (that is, for every value of the `usize` argument) and
returns a slice of zero-sized elements whose length is exactly `len`. -/
theorem c10_slice_with_len_total (len : Nat) (h : len ≤ usizeMax) :
    (slice_with_len len).map List.length = some len := by
  simp [slice_with_len, h]

theorem c10_witness :
    3 ≤ usizeMax ∧ (slice_with_len 3).map List.length = some 3 :=
  ⟨by decide, c10_slice_with_len_total 3 (by decide)⟩

/-- Claim C7: the allocation is requested with alignment
`max(align(T), align(D))`; and given the allocator's guarantee that the
block start is a multiple of that requested alignment, the byte offset at
which the trailing sequence is written — and hence its absolute address —
is a multiple of `align(D)`. -/
theorem c7_trailing_alignment (τ δ : RustType) (base : Nat)
    (h : alloc_align τ δ ∣ base) :
    alloc_align τ δ = max τ.align δ.align ∧
    δ.align ∣ many_offset base τ δ ∧
    δ.align ∣ (base + many_offset base τ δ) := by
  have hδb : δ.align ∣ base := dvd_trans (align_dvd_alloc_align_right τ δ) h
  have haddr : δ.align ∣ (base + τ.size + align_offset (base + τ.size) δ.align) :=
    align_offset_spec (base + τ.size) δ.align δ.align_pos
  have haddr2 : δ.align ∣ (base + many_offset base τ δ) := by
    unfold many_offset
    rwa [← Nat.add_assoc]
  refine ⟨rfl, ?_, haddr2⟩
  have hsub := Nat.dvd_sub' haddr2 hδb
  rwa [Nat.add_sub_cancel_left] at hsub

theorem c7_witness :
    alloc_align u8T u32T ∣ 8 ∧
    (alloc_align u8T u32T = max u8T.align u32T.align ∧
      u32T.align ∣ many_offset 8 u8T u32T ∧
      u32T.align ∣ (8 + many_offset 8 u8T u32T)) :=
  ⟨by decide, c7_trailing_alignment u8T u32T 8 (by decide)⟩

/-- Claim C9 (amended): construction never panics provided the computed
total size respects the `Layout::from_size_align` bound
`total_size ≤ isize::MAX - (align - 1)`; for larger (still valid) inputs
the layout `.unwrap()` does panic, so the bound is necessary. -/
theorem c9_no_panic_within_layout_bound (τ δ : RustType) (single : List Nat)
    (many : List (List Nat)) (alloc : Option Nat)
    (h : total_size τ δ many.length ≤ isizeMax - (alloc_align τ δ - 1)) :
    dynStructNew τ δ single many alloc ≠ NewResult.panicked := by
  have hpow : is_power_of_two (alloc_align τ δ) = true := by
    obtain ⟨t, ht⟩ := alloc_align_two_pow τ δ
    rw [ht]
    exact is_power_of_two_two_pow t
  have hlay : layout_ok (total_size τ δ many.length) (alloc_align τ δ) = true := by
    simp [layout_ok, hpow, h]
  unfold dynStructNew
  split
  · simp
  · split
    · simp
    · split
      · simp
      · split
        · simp
        · simp

theorem c9_witness :
    total_size u8T u8T 2 ≤ isizeMax - (alloc_align u8T u8T - 1) ∧
    dynStructNew u8T u8T [7] [[1], [2]] (some 0) ≠ NewResult.panicked :=
  ⟨by decide,
    c9_no_panic_within_layout_bound u8T u8T [7] [[1], [2]] (some 0) (by decide)⟩

/-- Claim C4: for every non-empty slice of `m` values of one type,
`from_slice` returns (without copying or allocating) a view whose header
is the first value, whose fat-pointer length is `m - 1`, and whose
trailing elements are the remaining values in their original order. -/
theorem c4_from_slice_view (τ : RustType) (values : List (List Nat))
    (hne : values ≠ [])
    (hlen : ∀ v ∈ values, v.length = τ.size) :
    from_slice τ values = some (values.flatten, values.length - 1) ∧
    view_single τ (values.flatten, values.length - 1) = values[0]? ∧
    ∀ i < values.length - 1,
      view_many τ (values.flatten, values.length - 1) i = values[i + 1]? := by
  have hm : 0 < values.length := List.length_pos.mpr hne
  have hflat : values.flatten.length = values.length * τ.size :=
    flatten_length_of_uniform τ.size values hlen
  refine ⟨?_, ?_, ?_⟩
  · unfold from_slice
    rw [if_neg (Nat.pos_iff_ne_zero.mp hm)]
  · have hcond : 0 + τ.size ≤ values.flatten.length := by
      rw [hflat, Nat.zero_add]
      calc τ.size = 1 * τ.size := (one_mul _).symm
        _ ≤ values.length * τ.size := mul_le_mul_right' hm _
    unfold view_single readBytes
    rw [if_pos hcond, List.drop_zero]
    have h0 := flatten_segment τ.size values 0 hlen hm
    rw [Nat.zero_mul, List.drop_zero] at h0
    rw [h0, List.get_eq_getElem, List.getElem?_eq_getElem hm]
  · intro i hi
    have hi1 : i + 1 < values.length := by omega
    have hoff : many_field_offset τ τ = τ.size :=
      round_up_eq_self τ.size τ.align τ.align_dvd_size
    have harith : τ.size + i * τ.size = (i + 1) * τ.size := by ring
    have hcond : (i + 1) * τ.size + τ.size ≤ values.flatten.length := by
      rw [hflat]
      have h2 : (i + 1) * τ.size + τ.size = (i + 2) * τ.size := by ring
      rw [h2]
      exact mul_le_mul_right' (by omega) _
    unfold view_many readBytes
    rw [if_pos hi, hoff, harith, if_pos hcond,
      flatten_segment τ.size values (i + 1) hlen hi1,
      List.get_eq_getElem, List.getElem?_eq_getElem hi1]

theorem c4_witness :
    from_slice u8T [[1], [2], [3]] = some ([1, 2, 3], 2) ∧
    view_single u8T ([1, 2, 3], 2) = [[1], [2], [3]][0]? ∧
    view_many u8T ([1, 2, 3], 2) 0 = [[1], [2], [3]][1]? ∧
    view_many u8T ([1, 2, 3], 2) 1 = [[1], [2], [3]][2]? := by
  obtain ⟨h1, h2, h3⟩ := c4_from_slice_view u8T [[1], [2], [3]] (by decide) (by decide)
  exact ⟨h1, h2, h3 0 (by decide), h3 1 (by decide)⟩

/-! ## Supporting result: the construction is correct when no padding is
needed (`align(D) ∣ size(T)`), confirming that the out-of-bounds write of
`c1_new_oob_write_at_padded_layout` is precisely the padded case. -/

theorem align_offset_eq_zero_of_dvd (a p : Nat) (h : p ∣ a) : align_offset a p = 0 := by
  unfold align_offset
  rw [Nat.mod_eq_zero_of_dvd h, Nat.sub_zero, Nat.mod_self]

theorem many_offset_eq_size_of_no_padding (τ δ : RustType) (base : Nat)
    (hbase : alloc_align τ δ ∣ base) (hdvd : δ.align ∣ τ.size) :
    many_offset base τ δ = τ.size := by
  unfold many_offset
  rw [align_offset_eq_zero_of_dvd (base + τ.size) δ.align
    (dvd_add (dvd_trans (align_dvd_alloc_align_right τ δ) hbase) hdvd), Nat.add_zero]

theorem new_ok_of_no_padding (τ δ : RustType) (single : List Nat)
    (many : List (List Nat)) (base : Nat)
    (hs : single.length = τ.size)
    (hm : ∀ v ∈ many, v.length = δ.size)
    (hdvd : δ.align ∣ τ.size)
    (hbase : alloc_align τ δ ∣ base)
    (hnz : total_size τ δ many.length ≠ 0)
    (hlay : layout_ok (total_size τ δ many.length) (alloc_align τ δ) = true) :
    dynStructNew τ δ single many (some base) =
      NewResult.ok (single ++ many.flatten) many.length true ∧
    readBytes (single ++ many.flatten) 0 τ.size = some single ∧
    ∀ i, (hi : i < many.length) →
      readBytes (single ++ many.flatten) (many_offset base τ δ + i * δ.size) δ.size =
        some (many.get ⟨i, hi⟩) := by
  have hoff : many_offset base τ δ = τ.size :=
    many_offset_eq_size_of_no_padding τ δ base hbase hdvd
  have hflat : many.flatten.length = many.length * δ.size :=
    flatten_length_of_uniform δ.size many hm
  have htot : total_size τ δ many.length = τ.size + δ.size * many.length := rfl
  have hw1 : writeBytes (List.replicate (total_size τ δ many.length) 0) 0 single =
      some (single ++ List.replicate (δ.size * many.length) 0) := by
    unfold writeBytes
    rw [if_pos]
    · rw [List.take_zero, Nat.zero_add, hs, List.drop_replicate, htot,
        Nat.add_sub_cancel_left, List.nil_append]
    · rw [List.length_replicate, Nat.zero_add, hs, htot]
      exact Nat.le_add_right _ _
  have hw2 : writeBytes (single ++ List.replicate (δ.size * many.length) 0)
      (many_offset base τ δ) many.flatten = some (single ++ many.flatten) := by
    unfold writeBytes
    have hlen : (single ++ List.replicate (δ.size * many.length) 0).length =
        τ.size + δ.size * many.length := by
      rw [List.length_append, List.length_replicate, hs]
    rw [if_pos]
    · rw [hoff, hflat]
      have htake : (single ++ List.replicate (δ.size * many.length) 0).take τ.size =
          single := by
        rw [← hs, List.take_left]
      have hdropall : (single ++ List.replicate (δ.size * many.length) 0).drop
          (τ.size + many.length * δ.size) = [] := by
        apply List.drop_eq_nil_of_le
        rw [hlen]
        rw [Nat.mul_comm]
      rw [htake, hdropall, List.append_nil]
    · rw [hoff, hflat, hlen, Nat.mul_comm]
  have hrun : dynStructNew τ δ single many (some base) =
      NewResult.ok (single ++ many.flatten) many.length true := by
    unfold dynStructNew
    rw [if_neg hnz, if_pos hlay]
    simp only [hw1, hw2]
  refine ⟨hrun, ?_, ?_⟩
  · unfold readBytes
    rw [if_pos]
    · rw [List.drop_zero, ← hs, List.take_left]
    · rw [Nat.zero_add, List.length_append, ← hs]
      exact Nat.le_add_right _ _
  · intro i hi
    unfold readBytes
    have hcond : many_offset base τ δ + i * δ.size + δ.size ≤
        (single ++ many.flatten).length := by
      rw [hoff, List.length_append, hs, hflat, Nat.add_assoc]
      apply Nat.add_le_add_left
      have : i * δ.size + δ.size = (i + 1) * δ.size := by ring
      rw [this]
      exact mul_le_mul_right' (by omega) _
    have hsplit : (single ++ many.flatten).drop (τ.size + i * δ.size) =
        many.flatten.drop (i * δ.size) := by
      calc (single ++ many.flatten).drop (τ.size + i * δ.size)
          = ((single ++ many.flatten).drop single.length).drop (i * δ.size) := by
            rw [List.drop_drop, hs]
        _ = many.flatten.drop (i * δ.size) := by rw [List.drop_left]
    rw [if_pos hcond, hoff, hsplit, flatten_segment δ.size many i hm hi]
